import Mathlib

/-!
Verification of the multi-account OAuth authorization lifecycle of the
daraz-otp-fetcher backend (backend/auth.js and the /oauth2callback handler in
backend/server.js), as a shallow embedding.

Modelling conventions:
- JavaScript `Map` objects and the token-file directory are association lists
  with unique keys (`mapLookup` / `mapSet` / `mapDelete` mirror `get` / `set` /
  `delete`; `set` replaces in place, preserving insertion order, as JS does).
- Promises are waiter handles (natural-number ids); a settled outcome is
  recorded at most once in `AuthState.waiters` (`settleWaiter` is a no-op on an
  already-settled handle, as resolving a settled JS promise is).
- Provider and filesystem behaviour outside the repository (token endpoint,
  fs write failures, whether credentials.json parses) is an `Env` oracle.
- Node's `Buffer.from(s).toString('base64')` / `Buffer.from(s, 'base64')` pair
  is modelled byte-exactly: `b64EncodeBytes` / `b64DecodeBytes`, where the
  decoder is Node's lenient one (non-alphabet characters, including padding,
  are skipped; a lone trailing sextet is dropped). Account identifiers travel
  as their byte sequences; at the `String` level bytes are embedded as
  characters, which is exact on ASCII identifiers.
- Machine integers do not appear: all JS numbers involved (timestamps, ids)
  are used as exact integers in the source, so `Nat` is faithful.
-/

namespace DarazOtp

/-! ### Association-list maps (JavaScript Map semantics) -/

def mapLookup {α β : Type} [DecidableEq α] : List (α × β) → α → Option β
  | [], _ => none
  | (k', v) :: rest, k => if k' = k then some v else mapLookup rest k

def mapSet {α β : Type} [DecidableEq α] : List (α × β) → α → β → List (α × β)
  | [], k, v => [(k, v)]
  | (k', v') :: rest, k, v =>
      if k' = k then (k, v) :: rest else (k', v') :: mapSet rest k v

def mapDelete {α β : Type} [DecidableEq α] : List (α × β) → α → List (α × β)
  | [], _ => []
  | (k', v') :: rest, k =>
      if k' = k then mapDelete rest k else (k', v') :: mapDelete rest k

/-! ### Base64 (Node Buffer semantics) -/

/-- Character of the standard base64 alphabet at index v (v < 64). -/
def b64Char (v : Nat) : Char :=
  if v < 26 then Char.ofNat (65 + v)
  else if v < 52 then Char.ofNat (97 + (v - 26))
  else if v < 62 then Char.ofNat (48 + (v - 52))
  else if v = 62 then '+'
  else '/'

/-- Index of a character in the base64 alphabet; `none` for non-alphabet
characters (including the padding character), which Node's lenient decoder
skips. -/
def b64CharVal (c : Char) : Option Nat :=
  if 65 ≤ c.toNat ∧ c.toNat ≤ 90 then some (c.toNat - 65)
  else if 97 ≤ c.toNat ∧ c.toNat ≤ 122 then some (26 + (c.toNat - 97))
  else if 48 ≤ c.toNat ∧ c.toNat ≤ 57 then some (52 + (c.toNat - 48))
  else if c = '+' then some 62
  else if c = '/' then some 63
  else none

/-- Base64-encode a byte sequence, with padding, as
`Buffer.from(bytes).toString('base64')` does. -/
def b64EncodeBytes : List Nat → List Char
  | [] => []
  | [b0] => [b64Char (b0 / 4), b64Char (b0 % 4 * 16), '=', '=']
  | [b0, b1] =>
      [b64Char (b0 / 4), b64Char (b0 % 4 * 16 + b1 / 16), b64Char (b1 % 16 * 4), '=']
  | b0 :: b1 :: b2 :: rest =>
      b64Char (b0 / 4) :: b64Char (b0 % 4 * 16 + b1 / 16) ::
      b64Char (b1 % 16 * 4 + b2 / 64) :: b64Char (b2 % 64) :: b64EncodeBytes rest

/-- Reassemble bytes from a stream of base64 sextet values: groups of four give
three bytes; a trailing group of three gives two bytes, of two gives one byte,
and a lone trailing sextet is dropped (Node behaviour). -/
def b64DecodeVals : List Nat → List Nat
  | c1 :: c2 :: c3 :: c4 :: rest =>
      (c1 * 4 + c2 / 16) :: (c2 % 16 * 16 + c3 / 4) :: (c3 % 4 * 64 + c4) ::
      b64DecodeVals rest
  | [c1, c2, c3] => [c1 * 4 + c2 / 16, c2 % 16 * 16 + c3 / 4]
  | [c1, c2] => [c1 * 4 + c2 / 16]
  | [_] => []
  | [] => []

/-- Decode a base64 character sequence to bytes as `Buffer.from(s, 'base64')`
does: skip characters outside the alphabet (padding included), then regroup. -/
def b64DecodeBytes (s : List Char) : List Nat :=
  b64DecodeVals (s.filterMap b64CharVal)

/-! ### Data model (backend/auth.js) -/

/-- One configured account (the ACCOUNTS entries: email plus display name). -/
structure Account where
  email : String
  name : String
deriving DecidableEq, Repr

/-- The ACCOUNTS configuration from backend/auth.js. -/
def ACCOUNTS : List Account :=
  [⟨"ahmedsemporium@gmail.com", "Ahmed's Emporium"⟩,
   ⟨"akdigitalden@gmail.com", "AK Digital Den"⟩,
   ⟨"mtfdigitalemporium@gmail.com", "MTF Digital Emporium"⟩,
   ⟨"mtfdigitalemporiumofficial@gmail.com", "MTF Digital Emporium Official"⟩,
   ⟨"hkdigitalhub7@gmail.com", "HK Digital Hub"⟩]

/-- A stored file: either a parseable JSON token payload (the payload itself is
opaque to the auth layer, modelled as a `Nat`) or unparseable content. -/
inductive FileVal : Type
  | json (tok : Nat)
  | corrupt
deriving DecidableEq, Repr

/-- One entry of the pendingAuths Map: the OAuth2 client created for this
attempt, the handle of the promise returned by getNewToken, and the
registration timestamp (all per the Map value {oAuth2Client, resolve, reject,
timestamp}). -/
structure PendingEntry where
  clientId : Nat
  waiterId : Nat
  timestamp : Nat
deriving DecidableEq, Repr

/-- How a getNewToken promise was settled. -/
inductive WaiterOutcome : Type
  | resolvedClient (clientId : Nat)
  | rejectedTimeout
  | rejectedExchange (msg : String)
deriving DecidableEq, Repr

/-- The mutable state of the auth module: the pendingAuths Map, the token-file
directory, the settled promises, each OAuth2 client's credentials (set by
setCredentials), the consent URLs surfaced to the user, the console log, and a
fresh-id counter for newly created clients and promises. -/
structure AuthState where
  pendingAuths : List (String × PendingEntry)
  files : List (String × FileVal)
  waiters : List (Nat × WaiterOutcome)
  clientCreds : List (Nat × Nat)
  consentRequests : List String
  log : List String
  nextId : Nat
deriving DecidableEq, Repr

/-- What eventually happens to a consent flow started for one account: the
provider redirects to the callback with some code, or the user abandons the
flow and no callback ever arrives. -/
inductive ConsentFate : Type
  | callback (code : String)
  | abandoned
deriving DecidableEq, Repr

/-- The environment outside the repository: whether credentials.json is
present and parses, the provider's token endpoint (code to token payload, or
rejection), each account's consent fate, and which paths the filesystem
accepts writes to. -/
structure Env where
  configOk : Bool
  exchange : String → Option Nat
  fate : String → ConsentFate
  writable : String → Bool

/-! ### Constants and helpers (backend/auth.js) -/

/-- TTL of a pending authorization: 10 * 60 * 1000 ms in the sweep condition. -/
def ttlMs : Nat := 10 * 60 * 1000

/-- Period of the cleanup sweep: setInterval(..., 60000). -/
def sweepIntervalMs : Nat := 60000

/-- getTokenPath: token file name from the email, with every '@' and '.'
replaced by '_' (email.replace(/[@.]/g, '_')). -/
def getTokenPath (email : String) : String :=
  "token_" ++ String.mk (email.data.map (fun c => if c = '@' ∨ c = '.' then '_' else c))
    ++ ".json"

/-- readJsonFile: absent file gives null silently; unparseable content is
caught, logged and gives null; otherwise the parsed payload. Returns the
value and the log lines produced. -/
def readJsonFile (files : List (String × FileVal)) (p : String) :
    Option Nat × List String :=
  match mapLookup files p with
  | none => (none, [])
  | some (.json t) => (some t, [])
  | some .corrupt => (none, ["Failed to read JSON file at " ++ p])

/-- writeJsonFile: a failed write is caught and logged, never thrown. Returns
the (possibly unchanged) directory and the log lines produced. -/
def writeJsonFile (env : Env) (files : List (String × FileVal)) (p : String)
    (t : Nat) : List (String × FileVal) × List String :=
  if env.writable p then (mapSet files p (.json t), [])
  else (files, ["Failed to write JSON file at " ++ p])

/-- Settling a promise: recording an outcome for a waiter handle. A promise
settles at most once; a second resolve or reject is a no-op. -/
def settleWaiter (ws : List (Nat × WaiterOutcome)) (w : Nat) (o : WaiterOutcome) :
    List (Nat × WaiterOutcome) :=
  if (mapLookup ws w).isSome then ws else mapSet ws w o

/-- Whether a pending entry is older than the TTL at time now
(now - data.timestamp > 10 * 60 * 1000). -/
def isExpired (now : Nat) (e : PendingEntry) : Bool :=
  decide (now - e.timestamp > ttlMs)

/-- One tick of the cleanup interval: every entry older than the TTL is
deleted from pendingAuths and its waiter is rejected with the timeout error.
(Map keys are unique, so the loop's delete-while-iterating is a filter.) -/
def sweep (now : Nat) (st : AuthState) : AuthState :=
  { st with
    pendingAuths := st.pendingAuths.filter (fun p => ! isExpired now p.2),
    waiters := (st.pendingAuths.filter (fun p => isExpired now p.2)).foldl
      (fun ws p => settleWaiter ws p.2.waiterId .rejectedTimeout) st.waiters }

/-- The rejection message used by the sweep. -/
def timeoutMsg : String := "Authentication timeout. Please try again."

/-- The message of the error thrown on a complete with no matching pending
authorization. -/
def noPendingMsg (email : String) : String :=
  "No pending authentication found for " ++ email ++ ". Please try again."

/-! ### Operations (backend/auth.js) -/

/-- loadOAuthClient: reads credentials.json and constructs a fresh OAuth2
client, or throws when the configuration is missing/invalid. Configuration
validity is an environment fact; a fresh client id is allocated per call. -/
def loadOAuthClient (st : AuthState) (env : Env) : Except String Nat × AuthState :=
  if env.configOk then (.ok st.nextId, { st with nextId := st.nextId + 1 })
  else
    (.error "Missing credentials.json. Please place your Google Cloud credentials.json file in the backend folder.",
     st)

/-- The state parameter built by getNewToken:
Buffer.from(email).toString('base64'), over the identifier's bytes. -/
def makeStateBytes (emailBytes : List Nat) : List Char :=
  b64EncodeBytes emailBytes

/-- The state parameter at the String level (bytes embedded as characters;
exact for ASCII identifiers). -/
def makeState (email : String) : String :=
  String.mk (makeStateBytes (email.data.map Char.toNat))

/-- The consent URL generated by getNewToken (offline access, gmail.readonly
scope, forced consent, the account carried in the state parameter). -/
def authUrlFor (email : String) : String :=
  "access_type=offline&scope=gmail.readonly&prompt=consent&state=" ++ makeState email

/-- getNewToken: build the state parameter, surface the consent URL, store the
promise handlers in pendingAuths (Map.set: replacing any entry already present
for this email), and return the waiter handle of the promise the caller
awaits. -/
def getNewToken (st : AuthState) (email : String) (clientId : Nat) (now : Nat) :
    Nat × AuthState :=
  let w := st.nextId
  (w,
   { st with
     nextId := w + 1,
     consentRequests := st.consentRequests ++ [authUrlFor email],
     pendingAuths := mapSet st.pendingAuths email ⟨clientId, w, now⟩ })

/-- exchangeCodeForToken: look up the pending authorization by email; on miss
throw the no-pending error leaving everything unchanged. Otherwise delete the
entry, exchange the (trimmed) code with the provider; on rejection log and
reject the waiter; on success set the client's credentials, write the token
file (best effort) and resolve the waiter with the client. -/
def exchangeCodeForToken (st : AuthState) (env : Env) (code : String)
    (email : String) : Except String Nat × AuthState :=
  match mapLookup st.pendingAuths email with
  | none => (.error (noPendingMsg email), st)
  | some pending =>
    let st1 := { st with pendingAuths := mapDelete st.pendingAuths email }
    match env.exchange code.trim with
    | none =>
      let msg := "Failed to retrieve access token"
      (.error msg,
       { st1 with
         waiters := settleWaiter st1.waiters pending.waiterId (.rejectedExchange msg),
         log := st1.log ++ ["Error retrieving access token for " ++ email] })
    | some tok =>
      let st2 := { st1 with clientCreds := mapSet st1.clientCreds pending.clientId tok }
      let wr := writeJsonFile env st2.files (getTokenPath email) tok
      (.ok pending.clientId,
       { st2 with
         files := wr.1,
         log := st2.log ++ wr.2,
         waiters := settleWaiter st2.waiters pending.waiterId
           (.resolvedClient pending.clientId) })

/-- Result of the synchronous part of getAuthorizedClient: a ready client
(stored token found), a suspension on a waiter handle (consent flow started),
or a thrown configuration error. -/
inductive AuthStep : Type
  | ready (clientId : Nat)
  | suspended (waiterId : Nat)
  | failed (msg : String)
deriving DecidableEq, Repr

/-- getAuthorizedClient up to its suspension point: construct the client, read
the token file; if a token is present seed the client with it and return it,
otherwise start the consent flow via getNewToken. -/
def getAuthorizedClient (st : AuthState) (env : Env) (email : String) (now : Nat) :
    AuthStep × AuthState :=
  match loadOAuthClient st env with
  | (.error msg, st1) => (.failed msg, st1)
  | (.ok clientId, st1) =>
    let r := readJsonFile st1.files (getTokenPath email)
    let st2 := { st1 with log := st1.log ++ r.2 }
    match r.1 with
    | some tok =>
        (.ready clientId, { st2 with clientCreds := mapSet st2.clientCreds clientId tok })
    | none =>
        let g := getNewToken st2 email clientId now
        (.suspended g.1, g.2)

/-- Reading a waiter's settled outcome as the value the awaiting caller
observes. An unsettled waiter would keep the caller suspended; that case is
unreachable in the flows proved below. -/
def awaitOutcome (st : AuthState) (w : Nat) : Except String Nat :=
  match mapLookup st.waiters w with
  | some (.resolvedClient c) => .ok c
  | some .rejectedTimeout => .error timeoutMsg
  | some (.rejectedExchange m) => .error m
  | none => .error "still pending"

/-- The whole awaited getAuthorizedClient call for one account: the
synchronous part, then — when it suspends — the completion of the flow as the
environment dictates: either the provider callback arrives and runs
exchangeCodeForToken, or the flow is abandoned and the first sweep tick past
the TTL rejects it. The caller then observes the settled outcome. -/
def runAuthorize (st : AuthState) (env : Env) (email : String) (now : Nat) :
    Except String Nat × AuthState :=
  match getAuthorizedClient st env email now with
  | (.failed msg, st1) => (.error msg, st1)
  | (.ready c, st1) => (.ok c, st1)
  | (.suspended w, st1) =>
    match env.fate email with
    | .callback code =>
        let r := exchangeCodeForToken st1 env code email
        (awaitOutcome r.2 w, r.2)
    | .abandoned =>
        let st2 := sweep (now + ttlMs + sweepIntervalMs) st1
        (awaitOutcome st2 w, st2)

/-- One element of the list returned by getAllAuthorizedClients. -/
structure ClientInfo where
  email : String
  name : String
  auth : Nat
deriving DecidableEq, Repr

/-- getAllAuthorizedClients over an explicit account list: authorize each
account in order inside try/catch; a success is pushed onto the result, a
failure is logged and the loop continues with the other accounts. -/
def getAllAuthorizedClientsOver (accounts : List Account) (st : AuthState)
    (env : Env) (now : Nat) : List ClientInfo × AuthState :=
  match accounts with
  | [] => ([], st)
  | acc :: rest =>
    match runAuthorize st env acc.email now with
    | (.ok c, st1) =>
      let r := getAllAuthorizedClientsOver rest st1 env now
      (⟨acc.email, acc.name, c⟩ :: r.1, r.2)
    | (.error msg, st1) =>
      getAllAuthorizedClientsOver rest
        { st1 with log := st1.log ++ ["Failed to authenticate " ++ acc.email ++ ": " ++ msg] }
        env now

/-- getAllAuthorizedClients over the configured ACCOUNTS list. -/
def getAllAuthorizedClients (st : AuthState) (env : Env) (now : Nat) :
    List ClientInfo × AuthState :=
  getAllAuthorizedClientsOver ACCOUNTS st env now

/-! ### Callback endpoint (backend/server.js, GET /oauth2callback) -/

/-- The query parameters of the callback request. A parameter that is present
with an empty value is falsy in the handler's checks, like an absent one. -/
structure Query where
  code : Option String
  error : Option String
  state : Option String
deriving DecidableEq, Repr

/-- JavaScript truthiness of an optional string query parameter. -/
def truthy : Option String → Bool
  | none => false
  | some s => decide (s ≠ "")

/-- Decoding the state parameter:
Buffer.from(state, 'base64').toString('utf8'), decoded bytes embedded as
characters (exact on ASCII; a nonempty result stays nonempty either way). -/
def decodeState (s : String) : String :=
  String.mk ((b64DecodeBytes s.data).map Char.ofNat)

/-- The email variable after the state-extraction block of the handler: null
(modelled "") when state is absent or falsy, else the decoded state. Decoding
is total — Buffer.from(s, 'base64') never throws on a string — so the catch
branch of the handler contributes no case here. -/
def decodedEmail : Option String → String
  | none => ""
  | some s => if s = "" then "" else decodeState s

/-- The distinguishable responses of the callback endpoint: the provider-error
page (400), the missing-code page (400), the cannot-identify-account page
(400), the exchange-failure page (500, carrying err.message), and the success
page (200, showing the email). -/
inductive CallbackResponse : Type
  | authorizationError (err : String)
  | missingCode
  | invalidRequest
  | exchangeError (msg : String)
  | success (email : String)
deriving DecidableEq, Repr

/-- The GET /oauth2callback handler: provider error first, then missing code,
then unidentifiable account, then the code exchange, whose rejection (a
correlation miss included) is caught and rendered as the 500 page. -/
def handleCallback (st : AuthState) (env : Env) (q : Query) :
    CallbackResponse × AuthState :=
  if truthy q.error then (.authorizationError (q.error.getD ""), st)
  else if ! truthy q.code then (.missingCode, st)
  else
    let email := decodedEmail q.state
    if email = "" then (.invalidRequest, st)
    else
      match exchangeCodeForToken st env (q.code.getD "") email with
      | (.error msg, st1) => (.exchangeError msg, st1)
      | (.ok _, st1) => (.success email, st1)

/-! ### Concrete sample inputs used to evaluate the development -/

/-- The auth module's state at process start: everything empty. -/
def emptyAuthState : AuthState := ⟨[], [], [], [], [], [], 0⟩

/-- Three generic accounts for batch scenarios. -/
def accA : Account := ⟨"a@x.com", "Account A"⟩

def accB : Account := ⟨"b@x.com", "Account B"⟩

def accC : Account := ⟨"c@x.com", "Account C"⟩

/-- A store holding tokens for accA and accC only. -/
def sampleBatchState : AuthState :=
  { emptyAuthState with
    files := [(getTokenPath "a@x.com", .json 11), (getTokenPath "c@x.com", .json 13)] }

/-- Valid configuration, provider accepts every code with token 42, every
consent flow is abandoned, all paths writable. -/
def sampleEnvAbandon : Env :=
  ⟨true, fun _ => none, fun _ => .abandoned, fun _ => true⟩

/-- Valid configuration, provider accepts every code with token 42, every
consent flow completes with code c0de, all paths writable. -/
def sampleEnvOk : Env :=
  ⟨true, fun _ => some 42, fun _ => .callback "c0de", fun _ => true⟩

/-- Like sampleEnvOk but with an unwritable filesystem. -/
def sampleEnvNoWrite : Env :=
  ⟨true, fun _ => some 42, fun _ => .callback "c0de", fun _ => false⟩

/-- A state with one registered pending authorization for accA (client 5,
waiter 6, registered at time 0). -/
def samplePendingState : AuthState :=
  { emptyAuthState with pendingAuths := [("a@x.com", ⟨5, 6, 0⟩)], nextId := 7 }

/-- The callback request the provider issues for accA's consent flow. -/
def sampleCallbackQuery : Query :=
  ⟨some "c0de", none, some (makeState "a@x.com")⟩

/-- A store whose record for accA is unparseable. -/
def sampleCorruptState : AuthState :=
  { emptyAuthState with files := [(getTokenPath "a@x.com", .corrupt)] }

/-- The state samplePendingState reaches after a successful exchange for accA
under sampleEnvOk. -/
def sampleExchangedState : AuthState :=
  { pendingAuths := [], files := [(getTokenPath "a@x.com", .json 42)],
    waiters := [(6, .resolvedClient 5)], clientCreds := [(5, 42)],
    consentRequests := [], log := [], nextId := 7 }

/-! ### Lemmas about the map primitives -/

theorem mapLookup_mapSet_self {α β : Type} [DecidableEq α] {l : List (α × β)}
    {k : α} {v : β} : mapLookup (mapSet l k v) k = some v := by
  induction l with
  | nil => simp [mapSet, mapLookup]
  | cons p rest ih =>
    obtain ⟨a, b⟩ := p
    by_cases ha : a = k
    · subst ha
      simp [mapSet, mapLookup]
    · simp [mapSet, mapLookup, ha, ih]

theorem mapLookup_mapSet_ne {α β : Type} [DecidableEq α] {l : List (α × β)}
    {k k' : α} {v : β} (hk : k' ≠ k) :
    mapLookup (mapSet l k v) k' = mapLookup l k' := by
  have hk' : ¬ k = k' := fun h => hk h.symm
  induction l with
  | nil => simp [mapSet, mapLookup, hk']
  | cons p rest ih =>
    obtain ⟨a, b⟩ := p
    by_cases ha : a = k
    · subst ha
      simp [mapSet, mapLookup, hk']
    · simp [mapSet, mapLookup, ha, ih]

theorem mapLookup_mapDelete_self {α β : Type} [DecidableEq α] {l : List (α × β)}
    {k : α} : mapLookup (mapDelete l k) k = none := by
  induction l with
  | nil => rfl
  | cons p rest ih =>
    obtain ⟨a, b⟩ := p
    by_cases ha : a = k
    · simpa [mapDelete, ha] using ih
    · simp [mapDelete, mapLookup, ha, ih]

theorem mapLookup_mapDelete_ne {α β : Type} [DecidableEq α] {l : List (α × β)}
    {k k' : α} (hk : k' ≠ k) :
    mapLookup (mapDelete l k) k' = mapLookup l k' := by
  induction l with
  | nil => rfl
  | cons p rest ih =>
    obtain ⟨a, b⟩ := p
    by_cases ha : a = k
    · subst ha
      have ha' : ¬ a = k' := fun h => hk h.symm
      simp [mapDelete, mapLookup, ha', ih]
    · simp [mapDelete, mapLookup, ha, ih]

theorem mapLookup_eq_none_of_not_mem {α β : Type} [DecidableEq α]
    {l : List (α × β)} {k : α} (h : k ∉ l.map Prod.fst) : mapLookup l k = none := by
  induction l with
  | nil => rfl
  | cons p rest ih =>
    obtain ⟨a, b⟩ := p
    simp only [List.map_cons, List.mem_cons, not_or] at h
    have ha : a ≠ k := fun hak => h.1 hak.symm
    simp [mapLookup, ha, ih h.2]

theorem mapLookup_some_mem {α β : Type} [DecidableEq α] {l : List (α × β)}
    {k : α} {v : β} (h : mapLookup l k = some v) : (k, v) ∈ l := by
  induction l with
  | nil => simp [mapLookup] at h
  | cons p rest ih =>
    obtain ⟨a, b⟩ := p
    by_cases ha : a = k
    · simp only [mapLookup, ha, if_pos, Option.some.injEq] at h
      simp [ha, h]
    · simp only [mapLookup, ha, if_neg, if_false] at h
      exact List.mem_cons_of_mem _ (ih h)

theorem mem_keys_of_mapLookup_some {α β : Type} [DecidableEq α] {l : List (α × β)}
    {k : α} {v : β} (h : mapLookup l k = some v) : k ∈ l.map Prod.fst :=
  List.mem_map.mpr ⟨(k, v), mapLookup_some_mem h, rfl⟩

theorem mapLookup_filter_of_none {α β : Type} [DecidableEq α] {l : List (α × β)}
    {k : α} (q : α × β → Bool) (h : mapLookup l k = none) :
    mapLookup (l.filter q) k = none := by
  induction l with
  | nil => rfl
  | cons p rest ih =>
    obtain ⟨a, b⟩ := p
    by_cases ha : a = k
    · simp [mapLookup, ha] at h
    · simp only [mapLookup, ha, if_neg, if_false] at h
      cases hq : q (a, b) with
      | true => simp [List.filter, hq, mapLookup, ha, ih h]
      | false => simp [List.filter, hq, ih h]

theorem mapLookup_filter_none {α β : Type} [DecidableEq α] {l : List (α × β)}
    {k : α} {v : β} (P : β → Bool) (hnd : (l.map Prod.fst).Nodup)
    (h : mapLookup l k = some v) (hP : P v = true) :
    mapLookup (l.filter (fun p => ! P p.2)) k = none := by
  induction l with
  | nil => simp [mapLookup] at h
  | cons p rest ih =>
    obtain ⟨a, b⟩ := p
    simp only [List.map_cons, List.nodup_cons] at hnd
    by_cases ha : a = k
    · simp only [mapLookup, ha, if_pos, Option.some.injEq] at h
      subst h
      have hrest : mapLookup rest k = none :=
        mapLookup_eq_none_of_not_mem (ha ▸ hnd.1)
      simp only [List.filter, hP, Bool.not_true]
      exact mapLookup_filter_of_none _ hrest
    · simp only [mapLookup, ha, if_neg, if_false] at h
      cases hq : ! P b with
      | true => simp [List.filter, hq, mapLookup, ha, ih hnd.2 h]
      | false => simp [List.filter, hq, ih hnd.2 h]

/-! ### Lemmas about waiter settlement -/

theorem settleWaiter_lookup_self {ws : List (Nat × WaiterOutcome)} {w : Nat}
    {o : WaiterOutcome} (h : mapLookup ws w = none) :
    mapLookup (settleWaiter ws w o) w = some o := by
  simp only [settleWaiter, h, Option.isSome_none, Bool.false_eq_true, if_false]
  exact mapLookup_mapSet_self

theorem settleWaiter_lookup_preserved {ws : List (Nat × WaiterOutcome)} {w w' : Nat}
    {o o' : WaiterOutcome} (h : mapLookup ws w = some o) :
    mapLookup (settleWaiter ws w' o') w = some o := by
  by_cases hw : (mapLookup ws w').isSome
  · simp [settleWaiter, hw, h]
  · simp only [settleWaiter, hw, Bool.false_eq_true, if_false]
    by_cases hww : w' = w
    · subst hww
      simp [h] at hw
    · rw [mapLookup_mapSet_ne (fun hh => hww hh.symm)]
      exact h

theorem settleWaiter_lookup_ne {ws : List (Nat × WaiterOutcome)} {w w' : Nat}
    {o : WaiterOutcome} (h : w ≠ w') :
    mapLookup (settleWaiter ws w' o) w = mapLookup ws w := by
  by_cases hw : (mapLookup ws w').isSome
  · simp [settleWaiter, hw]
  · simp only [settleWaiter, hw, Bool.false_eq_true, if_false]
    exact mapLookup_mapSet_ne h

/-- Folding the sweep's rejections over a list of entries keeps any outcome
that is already recorded (a settled promise is never settled again). -/
theorem foldSettle_preserved {l : List (String × PendingEntry)}
    {ws : List (Nat × WaiterOutcome)} {w : Nat} {o : WaiterOutcome}
    (h : mapLookup ws w = some o) :
    mapLookup
      (l.foldl (fun ws p => settleWaiter ws p.2.waiterId .rejectedTimeout) ws) w
      = some o := by
  induction l generalizing ws with
  | nil => exact h
  | cons p rest ih =>
    exact ih (settleWaiter_lookup_preserved h)

/-- Folding the sweep's rejections over a list containing an entry with waiter
handle w settles w with the timeout error when w was unsettled before. -/
theorem foldSettle_mem {l : List (String × PendingEntry)}
    {ws : List (Nat × WaiterOutcome)} {w : Nat}
    (hmem : ∃ p ∈ l, (Prod.snd p).waiterId = w) (h : mapLookup ws w = none) :
    mapLookup
      (l.foldl (fun ws p => settleWaiter ws p.2.waiterId .rejectedTimeout) ws) w
      = some .rejectedTimeout := by
  induction l generalizing ws with
  | nil => simp at hmem
  | cons p rest ih =>
    by_cases hpw : p.2.waiterId = w
    · simp only [List.foldl_cons, hpw]
      exact foldSettle_preserved (settleWaiter_lookup_self h)
    · obtain ⟨q, hq, hqw⟩ := hmem
      rcases List.mem_cons.mp hq with hq1 | hq2
      · exact absurd (hq1 ▸ hqw) hpw
      · simp only [List.foldl_cons]
        refine ih ⟨q, hq2, hqw⟩ ?_
        rw [settleWaiter_lookup_ne (fun hh => hpw hh.symm)]
        exact h

/-! ### Lemmas about keys and entry counts -/

theorem mapLookup_isSome_of_mem_keys {α β : Type} [DecidableEq α]
    {l : List (α × β)} {k : α} (h : k ∈ l.map Prod.fst) :
    (mapLookup l k).isSome := by
  induction l with
  | nil => simp at h
  | cons p rest ih =>
    obtain ⟨a, b⟩ := p
    by_cases ha : a = k
    · subst ha
      simp [mapLookup]
    · have hak : ¬ k = a := fun hh => ha hh.symm
      simp only [List.map_cons, List.mem_cons, hak, false_or] at h
      simp [mapLookup, ha, ih h]

theorem countP_key_eq_zero {α β : Type} [DecidableEq α] {l : List (α × β)}
    {k : α} (h : k ∉ l.map Prod.fst) :
    l.countP (fun p => decide (p.1 = k)) = 0 := by
  induction l with
  | nil => rfl
  | cons p rest ih =>
    obtain ⟨a, b⟩ := p
    simp only [List.map_cons, List.mem_cons, not_or] at h
    have ha : ¬ a = k := fun hh => h.1 hh.symm
    simp [List.countP_cons, ha, ih h.2]

theorem countP_key_eq_one {α β : Type} [DecidableEq α] {l : List (α × β)}
    {k : α} (hnd : (l.map Prod.fst).Nodup) (h : (mapLookup l k).isSome) :
    l.countP (fun p => decide (p.1 = k)) = 1 := by
  induction l with
  | nil => simp [mapLookup] at h
  | cons p rest ih =>
    obtain ⟨a, b⟩ := p
    simp only [List.map_cons, List.nodup_cons] at hnd
    by_cases ha : a = k
    · subst ha
      simp [List.countP_cons, countP_key_eq_zero hnd.1]
    · simp only [mapLookup, ha, if_neg, if_false] at h
      simp [List.countP_cons, ha, ih hnd.2 h]

theorem mapSet_keys_of_isSome {α β : Type} [DecidableEq α] {l : List (α × β)}
    {k : α} {v : β} (h : (mapLookup l k).isSome) :
    (mapSet l k v).map Prod.fst = l.map Prod.fst := by
  induction l with
  | nil => simp [mapLookup] at h
  | cons p rest ih =>
    obtain ⟨a, b⟩ := p
    by_cases ha : a = k
    · subst ha
      simp [mapSet]
    · simp only [mapLookup, ha, if_neg, if_false] at h
      simp [mapSet, ha, ih h]

theorem mapSet_keys_of_none {α β : Type} [DecidableEq α] {l : List (α × β)}
    {k : α} {v : β} (h : mapLookup l k = none) :
    (mapSet l k v).map Prod.fst = l.map Prod.fst ++ [k] := by
  induction l with
  | nil => simp [mapSet]
  | cons p rest ih =>
    obtain ⟨a, b⟩ := p
    by_cases ha : a = k
    · simp [mapLookup, ha] at h
    · simp only [mapLookup, ha, if_neg, if_false] at h
      simp [mapSet, ha, ih h]

theorem mapSet_nodup_keys {α β : Type} [DecidableEq α] {l : List (α × β)}
    {k : α} {v : β} (hnd : (l.map Prod.fst).Nodup) :
    ((mapSet l k v).map Prod.fst).Nodup := by
  by_cases h : (mapLookup l k).isSome
  · rw [mapSet_keys_of_isSome h]
    exact hnd
  · have h0 : mapLookup l k = none := Option.not_isSome_iff_eq_none.mp h
    rw [mapSet_keys_of_none h0]
    have hk : k ∉ l.map Prod.fst := fun hm => h (mapLookup_isSome_of_mem_keys hm)
    simp [List.nodup_append, hnd, hk]

/-! ### Lemmas about base64 -/

theorem b64CharVal_b64Char_fin :
    ∀ v : Fin 64, b64CharVal (b64Char v.val) = some v.val := by decide

theorem b64CharVal_b64Char {v : Nat} (h : v < 64) :
    b64CharVal (b64Char v) = some v :=
  b64CharVal_b64Char_fin ⟨v, h⟩

theorem b64CharVal_pad : b64CharVal '=' = none := by decide

/-- Node's decoder inverts the encoder on every byte sequence. -/
theorem b64_decode_encode :
    ∀ bs : List Nat, (∀ b ∈ bs, b < 256) →
      b64DecodeBytes (b64EncodeBytes bs) = bs
  | [], _ => rfl
  | [b0], h => by
    have h0 : b0 < 256 := h b0 (by simp)
    have e1 := b64CharVal_b64Char (v := b0 / 4) (by omega)
    have e2 := b64CharVal_b64Char (v := b0 % 4 * 16) (by omega)
    simp only [b64EncodeBytes, b64DecodeBytes, List.filterMap_cons, e1, e2,
      b64CharVal_pad, List.filterMap_nil, b64DecodeVals, List.cons.injEq, and_true]
    omega
  | [b0, b1], h => by
    have h0 : b0 < 256 := h b0 (by simp)
    have h1 : b1 < 256 := h b1 (by simp)
    have e1 := b64CharVal_b64Char (v := b0 / 4) (by omega)
    have e2 := b64CharVal_b64Char (v := b0 % 4 * 16 + b1 / 16) (by omega)
    have e3 := b64CharVal_b64Char (v := b1 % 16 * 4) (by omega)
    simp only [b64EncodeBytes, b64DecodeBytes, List.filterMap_cons, e1, e2, e3,
      b64CharVal_pad, List.filterMap_nil, b64DecodeVals, List.cons.injEq, and_true]
    omega
  | b0 :: b1 :: b2 :: rest, h => by
    have h0 : b0 < 256 := h b0 (by simp)
    have h1 : b1 < 256 := h b1 (by simp)
    have h2 : b2 < 256 := h b2 (by simp)
    have e1 := b64CharVal_b64Char (v := b0 / 4) (by omega)
    have e2 := b64CharVal_b64Char (v := b0 % 4 * 16 + b1 / 16) (by omega)
    have e3 := b64CharVal_b64Char (v := b1 % 16 * 4 + b2 / 64) (by omega)
    have e4 := b64CharVal_b64Char (v := b2 % 64) (by omega)
    have ih := b64_decode_encode rest (fun b hb => h b (by simp [hb]))
    simp only [b64DecodeBytes] at ih
    simp only [b64EncodeBytes, b64DecodeBytes, List.filterMap_cons, e1, e2, e3, e4,
      b64DecodeVals, ih, List.cons.injEq]
    refine ⟨?_, ?_, ?_, trivial⟩ <;> omega

/-! ### Path characterizations of the operations -/

/-- Stored-token path of getAuthorizedClient: loads the record, seeds the
client, touches neither the registry nor the consent surface. -/
theorem getAuthorizedClient_stored (st : AuthState) (env : Env) (email : String)
    (now tok : Nat) (hcfg : env.configOk = true)
    (htok : mapLookup st.files (getTokenPath email) = some (.json tok)) :
    getAuthorizedClient st env email now =
      (.ready st.nextId,
       { st with
         clientCreds := mapSet st.clientCreds st.nextId tok,
         nextId := st.nextId + 1 }) := by
  simp [getAuthorizedClient, loadOAuthClient, hcfg, readJsonFile, htok]

/-- Fresh-consent path of getAuthorizedClient: no stored record, so a pending
authorization is registered and the call suspends. -/
theorem getAuthorizedClient_fresh (st : AuthState) (env : Env) (email : String)
    (now : Nat) (hcfg : env.configOk = true)
    (hno : mapLookup st.files (getTokenPath email) = none) :
    getAuthorizedClient st env email now =
      (.suspended (st.nextId + 1),
       { st with
         pendingAuths := mapSet st.pendingAuths email ⟨st.nextId, st.nextId + 1, now⟩,
         consentRequests := st.consentRequests ++ [authUrlFor email],
         nextId := st.nextId + 2 }) := by
  simp [getAuthorizedClient, loadOAuthClient, hcfg, readJsonFile, hno, getNewToken]

/-- Correlation miss of exchangeCodeForToken: the error is thrown and the
whole state — the registry in particular — is left untouched. -/
theorem exchangeCodeForToken_miss (st : AuthState) (env : Env) (code email : String)
    (h : mapLookup st.pendingAuths email = none) :
    exchangeCodeForToken st env code email = (.error (noPendingMsg email), st) := by
  simp [exchangeCodeForToken, h]

/-- Success path of exchangeCodeForToken: entry deleted, client seeded, token
file written best-effort, waiter resolved with the client. -/
theorem exchangeCodeForToken_ok (st : AuthState) (env : Env) (code email : String)
    (e : PendingEntry) (tok : Nat)
    (hp : mapLookup st.pendingAuths email = some e)
    (hx : env.exchange code.trim = some tok) :
    exchangeCodeForToken st env code email =
      (.ok e.clientId,
       { st with
         pendingAuths := mapDelete st.pendingAuths email,
         clientCreds := mapSet st.clientCreds e.clientId tok,
         files := (writeJsonFile env st.files (getTokenPath email) tok).1,
         log := st.log ++ (writeJsonFile env st.files (getTokenPath email) tok).2,
         waiters := settleWaiter st.waiters e.waiterId (.resolvedClient e.clientId) }) := by
  simp [exchangeCodeForToken, hp, hx]

/-- Provider-rejection path of exchangeCodeForToken: entry deleted, error
logged, waiter rejected, error thrown. -/
theorem exchangeCodeForToken_fail (st : AuthState) (env : Env) (code email : String)
    (e : PendingEntry)
    (hp : mapLookup st.pendingAuths email = some e)
    (hx : env.exchange code.trim = none) :
    exchangeCodeForToken st env code email =
      (.error "Failed to retrieve access token",
       { st with
         pendingAuths := mapDelete st.pendingAuths email,
         waiters := settleWaiter st.waiters e.waiterId
           (.rejectedExchange "Failed to retrieve access token"),
         log := st.log ++ ["Error retrieving access token for " ++ email] }) := by
  simp [exchangeCodeForToken, hp, hx]

/-- A full authorize call on an account with a stored record. -/
theorem runAuthorize_stored (st : AuthState) (env : Env) (email : String)
    (now tok : Nat) (hcfg : env.configOk = true)
    (htok : mapLookup st.files (getTokenPath email) = some (.json tok)) :
    runAuthorize st env email now =
      (.ok st.nextId,
       { st with
         clientCreds := mapSet st.clientCreds st.nextId tok,
         nextId := st.nextId + 1 }) := by
  simp only [runAuthorize, getAuthorizedClient_stored st env email now tok hcfg htok]

/-- A full authorize call on an account whose consent flow is abandoned: the
sweep past the TTL rejects it and the caller observes the timeout error. -/
theorem runAuthorize_abandoned (st : AuthState) (env : Env) (email : String)
    (now : Nat) (hcfg : env.configOk = true)
    (hno : mapLookup st.files (getTokenPath email) = none)
    (hfate : env.fate email = .abandoned)
    (hw : mapLookup st.waiters (st.nextId + 1) = none) :
    ∃ st2, runAuthorize st env email now = (.error timeoutMsg, st2) ∧
      st2.files = st.files ∧ st2.clientCreds = st.clientCreds ∧
      st2.nextId = st.nextId + 2 ∧ st2.log = st.log := by
  have hga := getAuthorizedClient_fresh st env email now hcfg hno
  have hmem : (email, (⟨st.nextId, st.nextId + 1, now⟩ : PendingEntry)) ∈
      mapSet st.pendingAuths email ⟨st.nextId, st.nextId + 1, now⟩ :=
    mapLookup_some_mem mapLookup_mapSet_self
  have hexp : isExpired (now + ttlMs + sweepIntervalMs)
      (⟨st.nextId, st.nextId + 1, now⟩ : PendingEntry) = true := by
    simp only [isExpired, ttlMs, sweepIntervalMs, decide_eq_true_eq]
    omega
  have hmemf : (email, (⟨st.nextId, st.nextId + 1, now⟩ : PendingEntry)) ∈
      (mapSet st.pendingAuths email ⟨st.nextId, st.nextId + 1, now⟩).filter
        (fun p => isExpired (now + ttlMs + sweepIntervalMs) p.2) :=
    List.mem_filter.mpr ⟨hmem, hexp⟩
  have hwait : mapLookup
      (((mapSet st.pendingAuths email ⟨st.nextId, st.nextId + 1, now⟩).filter
        (fun p => isExpired (now + ttlMs + sweepIntervalMs) p.2)).foldl
          (fun ws p => settleWaiter ws p.2.waiterId .rejectedTimeout) st.waiters)
      (st.nextId + 1) = some .rejectedTimeout :=
    foldSettle_mem ⟨_, hmemf, rfl⟩ hw
  refine ⟨{ st with
      pendingAuths := (mapSet st.pendingAuths email ⟨st.nextId, st.nextId + 1, now⟩).filter
        (fun p => ! isExpired (now + ttlMs + sweepIntervalMs) p.2),
      waiters := ((mapSet st.pendingAuths email ⟨st.nextId, st.nextId + 1, now⟩).filter
        (fun p => isExpired (now + ttlMs + sweepIntervalMs) p.2)).foldl
          (fun ws p => settleWaiter ws p.2.waiterId .rejectedTimeout) st.waiters,
      consentRequests := st.consentRequests ++ [authUrlFor email],
      nextId := st.nextId + 2 }, ?_, rfl, rfl, rfl, rfl⟩
  simp only [runAuthorize, hga, hfate, sweep, awaitOutcome, hwait]

/-! ### The claims -/

/-- C2: for every account whose credential store holds a readable token
record, getAuthorizedClient returns a ready client seeded with the stored
record, creates no Pending Authorization registry entry, and performs no
consent round trip. -/
theorem C2_stored_credential_uses_store (st : AuthState) (env : Env)
    (email : String) (now tok : Nat) (hcfg : env.configOk = true)
    (htok : mapLookup st.files (getTokenPath email) = some (.json tok)) :
    ∃ st2, getAuthorizedClient st env email now = (.ready st.nextId, st2) ∧
      mapLookup st2.clientCreds st.nextId = some tok ∧
      st2.pendingAuths = st.pendingAuths ∧
      st2.consentRequests = st.consentRequests ∧
      st2.files = st.files := by
  refine ⟨_, getAuthorizedClient_stored st env email now tok hcfg htok, ?_, rfl, rfl, rfl⟩
  exact mapLookup_mapSet_self

/-- Witness for C2: account accA of the sample store. -/
theorem C2_witness :
    ∃ st2, getAuthorizedClient sampleBatchState sampleEnvAbandon "a@x.com" 0 =
        (.ready sampleBatchState.nextId, st2) ∧
      mapLookup st2.clientCreds sampleBatchState.nextId = some 11 ∧
      st2.pendingAuths = sampleBatchState.pendingAuths ∧
      st2.consentRequests = sampleBatchState.consentRequests ∧
      st2.files = sampleBatchState.files :=
  C2_stored_credential_uses_store sampleBatchState sampleEnvAbandon "a@x.com" 0 11
    rfl (by decide)

/-- C4: a complete call whose account identifier matches no Pending
Authorization entry signals the no-matching-pending-authorization error and
leaves the whole state, the registry in particular, unchanged. -/
theorem C4_complete_miss_no_effect (st : AuthState) (env : Env)
    (code email : String) (h : mapLookup st.pendingAuths email = none) :
    exchangeCodeForToken st env code email = (.error (noPendingMsg email), st) ∧
    (exchangeCodeForToken st env code email).2.pendingAuths = st.pendingAuths := by
  have he := exchangeCodeForToken_miss st env code email h
  exact ⟨he, by rw [he]⟩

/-- Witness for C4: completing for an account nobody registered. -/
theorem C4_witness :
    exchangeCodeForToken emptyAuthState sampleEnvOk "c0de" "nobody@x.com" =
      (.error (noPendingMsg "nobody@x.com"), emptyAuthState) ∧
    (exchangeCodeForToken emptyAuthState sampleEnvOk "c0de" "nobody@x.com").2.pendingAuths =
      emptyAuthState.pendingAuths :=
  C4_complete_miss_no_effect emptyAuthState sampleEnvOk "c0de" "nobody@x.com" rfl

/-- C3: every Pending Authorization older than the TTL (10 minutes) is removed
by the periodic sweep (one tick per minute) and its waiter is rejected with
the timeout error; a complete arriving after the sweep for the same account is
a correlation miss that leaves the swept state unchanged, so the waiter is
never resolved a second time. -/
theorem C3_sweep_expires_pending (st : AuthState) (env : Env) (now : Nat)
    (email code : String) (e : PendingEntry)
    (hnd : (st.pendingAuths.map Prod.fst).Nodup)
    (he : mapLookup st.pendingAuths email = some e)
    (hold : now - e.timestamp > ttlMs)
    (hw : mapLookup st.waiters e.waiterId = none) :
    sweepIntervalMs = 60000 ∧ ttlMs = 10 * 60 * 1000 ∧
    mapLookup (sweep now st).pendingAuths email = none ∧
    mapLookup (sweep now st).waiters e.waiterId = some .rejectedTimeout ∧
    exchangeCodeForToken (sweep now st) env code email =
      (.error (noPendingMsg email), sweep now st) := by
  have hP : isExpired now e = true := by
    simp only [isExpired, decide_eq_true_eq]
    exact hold
  have h1 : mapLookup (sweep now st).pendingAuths email = none := by
    simp only [sweep]
    exact mapLookup_filter_none (isExpired now) hnd he hP
  have h2 : mapLookup (sweep now st).waiters e.waiterId = some .rejectedTimeout := by
    simp only [sweep]
    exact foldSettle_mem
      ⟨(email, e), List.mem_filter.mpr ⟨mapLookup_some_mem he, hP⟩, rfl⟩ hw
  exact ⟨rfl, rfl, h1, h2, exchangeCodeForToken_miss _ env code email h1⟩

/-- Witness for C3: the sample pending entry, swept 700 seconds after its
registration. -/
theorem C3_witness :
    sweepIntervalMs = 60000 ∧ ttlMs = 10 * 60 * 1000 ∧
    mapLookup (sweep 700000 samplePendingState).pendingAuths "a@x.com" = none ∧
    mapLookup (sweep 700000 samplePendingState).waiters 6 = some .rejectedTimeout ∧
    exchangeCodeForToken (sweep 700000 samplePendingState) sampleEnvOk "c0de" "a@x.com" =
      (.error (noPendingMsg "a@x.com"), sweep 700000 samplePendingState) :=
  C3_sweep_expires_pending samplePendingState sampleEnvOk 700000 "a@x.com" "c0de"
    ⟨5, 6, 0⟩ (by decide) (by decide) (by decide) rfl

/-- C7: a corrupt stored record reads as absent — logged, not thrown — and so
triggers re-consent; a failed credential write is logged but non-fatal: the
exchange still succeeds and the in-memory client keeps its credentials. -/
theorem C7_storage_errors_degrade :
    (∀ (files : List (String × FileVal)) (p : String),
        mapLookup files p = some .corrupt →
        readJsonFile files p = (none, ["Failed to read JSON file at " ++ p])) ∧
    (∀ (st : AuthState) (env : Env) (email : String) (now : Nat),
        env.configOk = true →
        mapLookup st.files (getTokenPath email) = some .corrupt →
        ∃ st2, getAuthorizedClient st env email now = (.suspended (st.nextId + 1), st2) ∧
          st2.consentRequests = st.consentRequests ++ [authUrlFor email]) ∧
    (∀ (st : AuthState) (env : Env) (email code : String) (e : PendingEntry) (tok : Nat),
        mapLookup st.pendingAuths email = some e →
        env.exchange code.trim = some tok →
        env.writable (getTokenPath email) = false →
        ∃ st2, exchangeCodeForToken st env code email = (.ok e.clientId, st2) ∧
          st2.files = st.files ∧
          mapLookup st2.clientCreds e.clientId = some tok ∧
          st2.log = st.log ++ ["Failed to write JSON file at " ++ getTokenPath email]) := by
  refine ⟨?_, ?_, ?_⟩
  · intro files p hc
    simp [readJsonFile, hc]
  · intro st env email now hcfg hcor
    refine ⟨{ st with
        pendingAuths := mapSet st.pendingAuths email ⟨st.nextId, st.nextId + 1, now⟩,
        consentRequests := st.consentRequests ++ [authUrlFor email],
        log := st.log ++ ["Failed to read JSON file at " ++ getTokenPath email],
        nextId := st.nextId + 2 }, ?_, rfl⟩
    simp [getAuthorizedClient, loadOAuthClient, hcfg, readJsonFile, hcor, getNewToken]
  · intro st env email code e tok hp hx hwr
    have hwf : writeJsonFile env st.files (getTokenPath email) tok =
        (st.files, ["Failed to write JSON file at " ++ getTokenPath email]) := by
      simp [writeJsonFile, hwr]
    have he := exchangeCodeForToken_ok st env code email e tok hp hx
    rw [hwf] at he
    exact ⟨_, he, rfl, mapLookup_mapSet_self, rfl⟩

/-- Witness for C7: a corrupt record, a consent retriggered by a corrupt
record, and a successful exchange on an unwritable filesystem. -/
theorem C7_witness :
    readJsonFile [("p.json", FileVal.corrupt)] "p.json" =
      (none, ["Failed to read JSON file at " ++ "p.json"]) ∧
    (∃ st2, getAuthorizedClient sampleCorruptState sampleEnvOk "a@x.com" 0 =
        (.suspended (sampleCorruptState.nextId + 1), st2) ∧
      st2.consentRequests = sampleCorruptState.consentRequests ++ [authUrlFor "a@x.com"]) ∧
    (∃ st2, exchangeCodeForToken samplePendingState sampleEnvNoWrite "c0de" "a@x.com" =
        (.ok 5, st2) ∧
      st2.files = samplePendingState.files ∧
      mapLookup st2.clientCreds 5 = some 42 ∧
      st2.log = samplePendingState.log ++
        ["Failed to write JSON file at " ++ getTokenPath "a@x.com"]) :=
  ⟨C7_storage_errors_degrade.1 [("p.json", FileVal.corrupt)] "p.json" (by decide),
   C7_storage_errors_degrade.2.1 sampleCorruptState sampleEnvOk "a@x.com" 0 rfl (by decide),
   C7_storage_errors_degrade.2.2 samplePendingState sampleEnvNoWrite "a@x.com" "c0de"
     ⟨5, 6, 0⟩ 42 (by decide) rfl rfl⟩

/-- C8: the registry keeps at most one Pending Authorization per account — a
second register for the same account replaces the entry rather than adding a
duplicate — and two registers followed by one complete deterministically
resolve exactly one waiter: the second one; the first is left unresolved. -/
theorem C8_single_pending_per_account (st : AuthState) (env : Env)
    (email code : String) (c1 c2 tok now1 now2 : Nat)
    (hnd : (st.pendingAuths.map Prod.fst).Nodup)
    (hw : ∀ w, st.nextId ≤ w → mapLookup st.waiters w = none)
    (hx : env.exchange code.trim = some tok) :
    (getNewToken (getNewToken st email c1 now1).2 email c2 now2).2.pendingAuths.countP
        (fun p => decide (p.1 = email)) = 1 ∧
    mapLookup (getNewToken (getNewToken st email c1 now1).2 email c2 now2).2.pendingAuths
        email = some ⟨c2, st.nextId + 1, now2⟩ ∧
    (exchangeCodeForToken (getNewToken (getNewToken st email c1 now1).2 email c2 now2).2
        env code email).1 = .ok c2 ∧
    mapLookup (exchangeCodeForToken (getNewToken (getNewToken st email c1 now1).2
        email c2 now2).2 env code email).2.waiters (st.nextId + 1) =
      some (.resolvedClient c2) ∧
    mapLookup (exchangeCodeForToken (getNewToken (getNewToken st email c1 now1).2
        email c2 now2).2 env code email).2.waiters st.nextId = none := by
  have hself : mapLookup
      (getNewToken (getNewToken st email c1 now1).2 email c2 now2).2.pendingAuths
      email = some ⟨c2, st.nextId + 1, now2⟩ :=
    mapLookup_mapSet_self
  have hnd2 : (((getNewToken (getNewToken st email c1 now1).2
      email c2 now2).2.pendingAuths).map Prod.fst).Nodup :=
    mapSet_nodup_keys (mapSet_nodup_keys hnd)
  have hexch := exchangeCodeForToken_ok
    (getNewToken (getNewToken st email c1 now1).2 email c2 now2).2 env code email
    ⟨c2, st.nextId + 1, now2⟩ tok hself hx
  refine ⟨countP_key_eq_one hnd2 (by rw [hself]; rfl), hself, ?_, ?_, ?_⟩
  · simp only [hexch]
  · simp only [hexch]
    exact settleWaiter_lookup_self (hw (st.nextId + 1) (by omega))
  · simp only [hexch]
    rw [settleWaiter_lookup_ne (by omega)]
    exact hw st.nextId (by omega)

/-- Witness for C8: two registers for accA from the empty state, then one
complete. -/
theorem C8_witness :
    (getNewToken (getNewToken emptyAuthState "a@x.com" 100 0).2 "a@x.com" 200 1).2.pendingAuths.countP
        (fun p => decide (p.1 = "a@x.com")) = 1 ∧
    mapLookup (getNewToken (getNewToken emptyAuthState "a@x.com" 100 0).2
        "a@x.com" 200 1).2.pendingAuths "a@x.com" = some ⟨200, 1, 1⟩ ∧
    (exchangeCodeForToken (getNewToken (getNewToken emptyAuthState "a@x.com" 100 0).2
        "a@x.com" 200 1).2 sampleEnvOk "c0de" "a@x.com").1 = .ok 200 ∧
    mapLookup (exchangeCodeForToken (getNewToken (getNewToken emptyAuthState
        "a@x.com" 100 0).2 "a@x.com" 200 1).2 sampleEnvOk "c0de" "a@x.com").2.waiters 1 =
      some (.resolvedClient 200) ∧
    mapLookup (exchangeCodeForToken (getNewToken (getNewToken emptyAuthState
        "a@x.com" 100 0).2 "a@x.com" 200 1).2 sampleEnvOk "c0de" "a@x.com").2.waiters 0 =
      none :=
  C8_single_pending_per_account emptyAuthState sampleEnvOk "a@x.com" "c0de"
    100 200 42 0 1 (by decide) (fun w _ => rfl) rfl

/-- C5: the correlation token built at registration decodes back to exactly
the originating account identifier along the callback path: over every byte
sequence the decode inverts the encode, and over every ASCII account
identifier string decodeState inverts makeState. -/
theorem C5_state_roundtrip :
    (∀ bs : List Nat, (∀ b ∈ bs, b < 256) →
        b64DecodeBytes (makeStateBytes bs) = bs) ∧
    (∀ email : String, (∀ c ∈ email.data, c.toNat < 128) →
        decodeState (makeState email) = email) := by
  constructor
  · intro bs h
    exact b64_decode_encode bs h
  · intro email h
    have hb : ∀ b ∈ email.data.map Char.toNat, b < 256 := by
      intro b hb
      obtain ⟨c, hc, rfl⟩ := List.mem_map.mp hb
      exact lt_trans (h c hc) (by omega)
    have hr := b64_decode_encode (email.data.map Char.toNat) hb
    show String.mk
      ((b64DecodeBytes (b64EncodeBytes (email.data.map Char.toNat))).map Char.ofNat)
      = email
    rw [hr, List.map_map]
    have h1 : email.data.map (Char.ofNat ∘ Char.toNat) = email.data.map id :=
      List.map_congr_left (fun c _ => Char.ofNat_toNat c)
    rw [h1, List.map_id]

/-- Witness for C5: the bytes of a short identifier, and the accA
identifier. -/
theorem C5_witness :
    b64DecodeBytes (makeStateBytes [97, 64, 120]) = [97, 64, 120] ∧
    decodeState (makeState "a@x.com") = "a@x.com" :=
  ⟨C5_state_roundtrip.1 [97, 64, 120] (by decide),
   C5_state_roundtrip.2 "a@x.com" (by decide)⟩

/-- C9: the callback returns the success response exactly when the code
exchange succeeds, and the four failure conditions — provider error present,
code missing, state unidentifiable, exchange failure — are checked in that
order and produce four mutually distinguishable responses. -/
theorem C9_callback_responses :
    (∀ (st : AuthState) (env : Env) (q : Query) (e : String),
        q.error = some e → e ≠ "" →
        handleCallback st env q = (.authorizationError e, st)) ∧
    (∀ (st : AuthState) (env : Env) (q : Query),
        truthy q.error = false → truthy q.code = false →
        handleCallback st env q = (.missingCode, st)) ∧
    (∀ (st : AuthState) (env : Env) (q : Query),
        truthy q.error = false → truthy q.code = true →
        decodedEmail q.state = "" →
        handleCallback st env q = (.invalidRequest, st)) ∧
    (∀ (st : AuthState) (env : Env) (q : Query) (msg : String) (st1 : AuthState),
        truthy q.error = false → truthy q.code = true →
        decodedEmail q.state ≠ "" →
        exchangeCodeForToken st env (q.code.getD "") (decodedEmail q.state) =
          (.error msg, st1) →
        handleCallback st env q = (.exchangeError msg, st1)) ∧
    (∀ (st : AuthState) (env : Env) (q : Query) (c : Nat) (st1 : AuthState),
        truthy q.error = false → truthy q.code = true →
        decodedEmail q.state ≠ "" →
        exchangeCodeForToken st env (q.code.getD "") (decodedEmail q.state) =
          (.ok c, st1) →
        handleCallback st env q = (.success (decodedEmail q.state), st1)) ∧
    (∀ (st : AuthState) (env : Env) (q : Query) (st1 : AuthState) (em : String),
        handleCallback st env q = (.success em, st1) →
        ∃ c st2, exchangeCodeForToken st env (q.code.getD "") (decodedEmail q.state) =
          (.ok c, st2)) ∧
    (∀ e m em : String,
        CallbackResponse.authorizationError e ≠ .missingCode ∧
        CallbackResponse.authorizationError e ≠ .invalidRequest ∧
        CallbackResponse.authorizationError e ≠ .exchangeError m ∧
        CallbackResponse.authorizationError e ≠ .success em ∧
        CallbackResponse.missingCode ≠ .invalidRequest ∧
        CallbackResponse.missingCode ≠ .exchangeError m ∧
        CallbackResponse.missingCode ≠ .success em ∧
        CallbackResponse.invalidRequest ≠ .exchangeError m ∧
        CallbackResponse.invalidRequest ≠ .success em ∧
        CallbackResponse.exchangeError m ≠ .success em) := by
  refine ⟨?_, ?_, ?_, ?_, ?_, ?_, ?_⟩
  · intro st env q e he hne
    simp [handleCallback, truthy, he, hne]
  · intro st env q he hc
    simp [handleCallback, he, hc]
  · intro st env q he hc hes
    simp [handleCallback, he, hc, hes]
  · intro st env q msg st1 he hc hes hx
    simp [handleCallback, he, hc, hes, hx]
  · intro st env q c st1 he hc hes hx
    simp [handleCallback, he, hc, hes, hx]
  · intro st env q st1 em h
    by_cases he : truthy q.error
    · simp [handleCallback, he] at h
    · by_cases hc : truthy q.code
      · by_cases hes : decodedEmail q.state = ""
        · simp [handleCallback, he, hc, hes] at h
        · rcases hx : exchangeCodeForToken st env (q.code.getD "") (decodedEmail q.state)
            with ⟨r, st2⟩
          cases r with
          | error msg => simp [handleCallback, he, hc, hes, hx] at h
          | ok c => exact ⟨c, st2, rfl⟩
      · simp [handleCallback, he, hc] at h
  · intro e m em
    refine ⟨?_, ?_, ?_, ?_, ?_, ?_, ?_, ?_, ?_, ?_⟩ <;> simp

/-- Witness for C9: one concrete request per branch of the handler. -/
theorem C9_witness :
    handleCallback emptyAuthState sampleEnvOk ⟨none, some "access_denied", none⟩ =
      (.authorizationError "access_denied", emptyAuthState) ∧
    handleCallback emptyAuthState sampleEnvOk ⟨none, none, none⟩ =
      (.missingCode, emptyAuthState) ∧
    handleCallback emptyAuthState sampleEnvOk ⟨some "c0de", none, none⟩ =
      (.invalidRequest, emptyAuthState) ∧
    handleCallback emptyAuthState sampleEnvOk ⟨some "c0de", none, some "QUJD"⟩ =
      (.exchangeError (noPendingMsg "ABC"), emptyAuthState) ∧
    handleCallback samplePendingState sampleEnvOk sampleCallbackQuery =
      (.success "a@x.com", sampleExchangedState) ∧
    (∃ c st2, exchangeCodeForToken samplePendingState sampleEnvOk
        (sampleCallbackQuery.code.getD "") (decodedEmail sampleCallbackQuery.state) =
        (.ok c, st2)) ∧
    CallbackResponse.missingCode ≠ .invalidRequest :=
  ⟨C9_callback_responses.1 emptyAuthState sampleEnvOk ⟨none, some "access_denied", none⟩
      "access_denied" rfl (by decide),
   C9_callback_responses.2.1 emptyAuthState sampleEnvOk ⟨none, none, none⟩ rfl rfl,
   C9_callback_responses.2.2.1 emptyAuthState sampleEnvOk ⟨some "c0de", none, none⟩
      rfl (by decide) rfl,
   C9_callback_responses.2.2.2.1 emptyAuthState sampleEnvOk ⟨some "c0de", none, some "QUJD"⟩
      (noPendingMsg "ABC") emptyAuthState rfl (by decide) (by decide) rfl,
   C9_callback_responses.2.2.2.2.1 samplePendingState sampleEnvOk sampleCallbackQuery
      5 sampleExchangedState rfl (by decide) (by decide) rfl,
   C9_callback_responses.2.2.2.2.2.1 samplePendingState sampleEnvOk sampleCallbackQuery
      sampleExchangedState "a@x.com" (by decide),
   (C9_callback_responses.2.2.2.2.2.2 "e" "m" "em").2.2.2.2.1⟩

/-- C10: state decoding in the callback is total — the decoder below models
Node's lenient base64 decode, which never throws, so the handler's catch
branch contributes no behaviour — the cannot-identify-account response is
produced exactly when state is absent or decodes to the empty identifier, and
any other malformed state decodes to some garbage identifier that surfaces
downstream as the no-pending correlation miss, not as a decode failure. -/
theorem C10_state_decode_classification :
    (∀ (st : AuthState) (env : Env) (q : Query) (code : String),
        truthy q.error = false → q.code = some code → code ≠ "" →
        ((handleCallback st env q).1 = .invalidRequest ↔
          (q.state = none ∨ ∃ s, q.state = some s ∧ decodeState s = ""))) ∧
    (∀ (st : AuthState) (env : Env) (q : Query) (code s : String),
        truthy q.error = false → q.code = some code → code ≠ "" →
        q.state = some s → decodeState s ≠ "" →
        mapLookup st.pendingAuths (decodeState s) = none →
        handleCallback st env q =
          (.exchangeError (noPendingMsg (decodeState s)), st)) := by
  constructor
  · intro st env q code he hc hcne
    have htc : truthy q.code = true := by simp [hc, truthy, hcne]
    constructor
    · intro hresp
      by_cases hes : decodedEmail q.state = ""
      · cases hq : q.state with
        | none => exact Or.inl rfl
        | some s =>
          refine Or.inr ⟨s, rfl, ?_⟩
          rw [hq] at hes
          by_cases hs : s = ""
          · subst hs
            rfl
          · simpa [decodedEmail, hs] using hes
      · exfalso
        rcases hx : exchangeCodeForToken st env (q.code.getD "") (decodedEmail q.state)
          with ⟨r, st2⟩
        cases r with
        | error msg => simp [handleCallback, he, htc, hes, hx] at hresp
        | ok c => simp [handleCallback, he, htc, hes, hx] at hresp
    · intro hor
      have hes : decodedEmail q.state = "" := by
        rcases hor with hnone | ⟨s, hs, hd⟩
        · rw [hnone]
          rfl
        · rw [hs]
          by_cases hse : s = ""
          · simp [decodedEmail, hse]
          · simp [decodedEmail, hse, hd]
      simp [handleCallback, he, htc, hes]
  · intro st env q code s he hc hcne hs hd hp
    have htc : truthy q.code = true := by simp [hc, truthy, hcne]
    have hse : s ≠ "" := by
      intro h
      exact hd (by rw [h]; rfl)
    have hes : decodedEmail q.state = decodeState s := by
      rw [hs]
      simp [decodedEmail, hse]
    have hmiss := exchangeCodeForToken_miss st env code (decodeState s) hp
    have htc2 : truthy (some code) = true := by simp [truthy, hcne]
    simp [handleCallback, he, htc, htc2, hes, hd, hc, hmiss]

/-- Witness for C10: a state of pure garbage decodes to the empty identifier;
a well-formed but unknown state surfaces as a correlation miss. -/
theorem C10_witness :
    ((handleCallback emptyAuthState sampleEnvOk ⟨some "c0de", none, some "!!!"⟩).1 =
        .invalidRequest ↔
      ((⟨some "c0de", none, some "!!!"⟩ : Query).state = none ∨
        ∃ s, (⟨some "c0de", none, some "!!!"⟩ : Query).state = some s ∧
          decodeState s = "")) ∧
    handleCallback emptyAuthState sampleEnvOk ⟨some "c0de", none, some "QUJD"⟩ =
      (.exchangeError (noPendingMsg (decodeState "QUJD")), emptyAuthState) :=
  ⟨C10_state_decode_classification.1 emptyAuthState sampleEnvOk
      ⟨some "c0de", none, some "!!!"⟩ "c0de" rfl rfl (by decide),
   C10_state_decode_classification.2 emptyAuthState sampleEnvOk
      ⟨some "c0de", none, some "QUJD"⟩ "c0de" "QUJD" rfl rfl (by decide) rfl
      (by decide) rfl⟩

/-- C6 counterexample: at a concrete successful callback the token file is
written during handleCallback itself — the Correlator path persists the
record, contrary to the claim that the resumed Orchestrator (and not the
Correlator) performs the save. -/
theorem C6_counterexample :
    mapLookup samplePendingState.files (getTokenPath "a@x.com") = none ∧
    mapLookup (handleCallback samplePendingState sampleEnvOk
        sampleCallbackQuery).2.files (getTokenPath "a@x.com") = some (.json 42) :=
  ⟨rfl, by decide⟩

/-- C6 amended: when a callback's code exchange succeeds, the Correlator path
(exchangeCodeForToken, invoked by the callback endpoint) both persists the
credential record and completes the Pending Authorization; the resumed
Orchestrator returns the client with exactly the post-exchange state,
performing no further persistence of its own. -/
theorem C6_correlator_persists (st : AuthState) (env : Env) (email : String)
    (now tok : Nat) (code : String)
    (hcfg : env.configOk = true)
    (hno : mapLookup st.files (getTokenPath email) = none)
    (hfate : env.fate email = .callback code)
    (hx : env.exchange code.trim = some tok)
    (hwr : env.writable (getTokenPath email) = true)
    (hw : mapLookup st.waiters (st.nextId + 1) = none) :
    mapLookup (exchangeCodeForToken (getAuthorizedClient st env email now).2 env
        code email).2.files (getTokenPath email) = some (.json tok) ∧
    mapLookup (exchangeCodeForToken (getAuthorizedClient st env email now).2 env
        code email).2.waiters (st.nextId + 1) = some (.resolvedClient st.nextId) ∧
    runAuthorize st env email now =
      (.ok st.nextId,
       (exchangeCodeForToken (getAuthorizedClient st env email now).2 env code email).2) := by
  have hga := getAuthorizedClient_fresh st env email now hcfg hno
  have hpend : mapLookup (getAuthorizedClient st env email now).2.pendingAuths email =
      some ⟨st.nextId, st.nextId + 1, now⟩ := by
    rw [hga]
    exact mapLookup_mapSet_self
  have hexch := exchangeCodeForToken_ok (getAuthorizedClient st env email now).2 env
    code email ⟨st.nextId, st.nextId + 1, now⟩ tok hpend hx
  have hwf : writeJsonFile env (getAuthorizedClient st env email now).2.files
      (getTokenPath email) tok =
      (mapSet (getAuthorizedClient st env email now).2.files (getTokenPath email)
        (.json tok), []) := by
    simp [writeJsonFile, hwr]
  have h1 : mapLookup (exchangeCodeForToken (getAuthorizedClient st env email now).2 env
      code email).2.files (getTokenPath email) = some (.json tok) := by
    simp only [hexch, hwf]
    exact mapLookup_mapSet_self
  have hwaiters : (getAuthorizedClient st env email now).2.waiters = st.waiters := by
    rw [hga]
  have h2 : mapLookup (exchangeCodeForToken (getAuthorizedClient st env email now).2 env
      code email).2.waiters (st.nextId + 1) = some (.resolvedClient st.nextId) := by
    simp only [hexch, hwaiters]
    exact settleWaiter_lookup_self hw
  refine ⟨h1, h2, ?_⟩
  simp only [runAuthorize, hga, hfate]
  have hawait : awaitOutcome (exchangeCodeForToken (getAuthorizedClient st env email now).2
      env code email).2 (st.nextId + 1) = .ok st.nextId := by
    simp only [awaitOutcome, h2]
  rw [hga] at hawait hexch
  simp only [hexch] at hawait ⊢
  simp only [hawait]

/-- Witness for the amended C6: accA's consent flow from the empty state. -/
theorem C6_witness :
    mapLookup (exchangeCodeForToken (getAuthorizedClient emptyAuthState sampleEnvOk
        "a@x.com" 0).2 sampleEnvOk "c0de" "a@x.com").2.files (getTokenPath "a@x.com") =
      some (.json 42) ∧
    mapLookup (exchangeCodeForToken (getAuthorizedClient emptyAuthState sampleEnvOk
        "a@x.com" 0).2 sampleEnvOk "c0de" "a@x.com").2.waiters 1 =
      some (.resolvedClient 0) ∧
    runAuthorize emptyAuthState sampleEnvOk "a@x.com" 0 =
      (.ok 0, (exchangeCodeForToken (getAuthorizedClient emptyAuthState sampleEnvOk
        "a@x.com" 0).2 sampleEnvOk "c0de" "a@x.com").2) :=
  C6_correlator_persists emptyAuthState sampleEnvOk "a@x.com" 0 42 "c0de"
    rfl rfl rfl rfl rfl rfl

/-- C1 counterexample: over accounts A (stored record), B (consent never
completes) and C (stored record), the batch returns ready entries for A and C
only — no timeout or pending failure result for B appears in the returned
value, contrary to the claim that a failure is reported for B. -/
theorem C1_counterexample :
    ((getAllAuthorizedClientsOver [accA, accB, accC] sampleBatchState
        sampleEnvAbandon 0).1.map ClientInfo.email = ["a@x.com", "c@x.com"]) ∧
    "b@x.com" ∉ (getAllAuthorizedClientsOver [accA, accB, accC] sampleBatchState
        sampleEnvAbandon 0).1.map ClientInfo.email := by
  constructor
  · rfl
  · decide

/-- C1 amended: the batch authorizes its accounts sequentially; each failing
account's error is caught and logged and the account is omitted from the
returned list, so over accounts A (stored record), B (consent abandoned,
failed by the sweep's timeout once its flow resolves) and C (stored record)
the batch returns ready clients for A and C — B's failure does not prevent
the other accounts' results, though no entry for B is returned. -/
theorem C1_batch_partial_results (A B C : Account) (st : AuthState) (env : Env)
    (now tokA tokC : Nat)
    (hcfg : env.configOk = true)
    (hA : mapLookup st.files (getTokenPath A.email) = some (.json tokA))
    (hC : mapLookup st.files (getTokenPath C.email) = some (.json tokC))
    (hB : mapLookup st.files (getTokenPath B.email) = none)
    (hfate : env.fate B.email = .abandoned)
    (hw : ∀ w, st.nextId ≤ w → mapLookup st.waiters w = none) :
    (getAllAuthorizedClientsOver [A, B, C] st env now).1 =
      [⟨A.email, A.name, st.nextId⟩, ⟨C.email, C.name, st.nextId + 3⟩] ∧
    mapLookup (getAllAuthorizedClientsOver [A, B, C] st env now).2.clientCreds
      st.nextId = some tokA ∧
    mapLookup (getAllAuthorizedClientsOver [A, B, C] st env now).2.clientCreds
      (st.nextId + 3) = some tokC := by
  have hA2 := runAuthorize_stored st env A.email now tokA hcfg hA
  have hB2 := runAuthorize_abandoned
    { st with clientCreds := mapSet st.clientCreds st.nextId tokA, nextId := st.nextId + 1 }
    env B.email now hcfg hB hfate (hw (st.nextId + 2) (by omega))
  obtain ⟨stB, hB2e, hBf, hBc, hBn, hBl⟩ := hB2
  have hBf2 : stB.files = st.files := hBf
  have hBc2 : stB.clientCreds = mapSet st.clientCreds st.nextId tokA := hBc
  have hBn2 : stB.nextId = st.nextId + 3 := hBn
  have hCtok : mapLookup stB.files (getTokenPath C.email) = some (.json tokC) := by
    rw [hBf2]
    exact hC
  have hC2 := runAuthorize_stored
    { stB with log := stB.log ++ ["Failed to authenticate " ++ B.email ++ ": " ++ timeoutMsg] }
    env C.email now tokC hcfg hCtok
  refine ⟨?_, ?_, ?_⟩
  · simp only [getAllAuthorizedClientsOver, hA2, hB2e, hC2]
    rw [hBn2]
  · simp only [getAllAuthorizedClientsOver, hA2, hB2e, hC2]
    rw [hBc2, hBn2, mapLookup_mapSet_ne (by omega)]
    exact mapLookup_mapSet_self
  · simp only [getAllAuthorizedClientsOver, hA2, hB2e, hC2]
    rw [hBc2, hBn2]
    exact mapLookup_mapSet_self

/-- Witness for the amended C1: the sample three-account batch. -/
theorem C1_witness :
    (getAllAuthorizedClientsOver [accA, accB, accC] sampleBatchState
        sampleEnvAbandon 0).1 =
      [⟨accA.email, accA.name, sampleBatchState.nextId⟩,
       ⟨accC.email, accC.name, sampleBatchState.nextId + 3⟩] ∧
    mapLookup (getAllAuthorizedClientsOver [accA, accB, accC] sampleBatchState
        sampleEnvAbandon 0).2.clientCreds sampleBatchState.nextId = some 11 ∧
    mapLookup (getAllAuthorizedClientsOver [accA, accB, accC] sampleBatchState
        sampleEnvAbandon 0).2.clientCreds (sampleBatchState.nextId + 3) = some 13 :=
  C1_batch_partial_results accA accB accC sampleBatchState sampleEnvAbandon 0 11 13
    rfl (by decide) (by decide) (by decide) rfl (fun w _ => rfl)

end DarazOtp
